import Mathlib

/-!
Shallow embedding of `src/linux_companion/nexusclip_daemon.py` (NexusClip
Linux companion daemon) and proofs about its protocol core.

Modelling conventions:
* Python `str` values on the wire (frames) are `List Char`; clipboard text
  (a Python `str` obtained from `bytes.decode('utf-8')`) is a `List Nat` of
  Unicode code points; raw `bytes` are `List Nat` with entries `< 256`.
* `datetime.now()` timestamps are `Nat` seconds.  `(now - last_seen)
  .total_seconds() > 120` is modelled with truncated `Nat` subtraction:
  when `last_seen ≤ now` the two agree, and when `last_seen > now` Python's
  negative difference and `Nat`'s `0` are both `≤ 120`, so the comparison
  agrees in every case.
* The Python dict `discovered_devices` is an association list in insertion
  order; `d[k] = v` overwrites in place or appends, `pop` removes the key.
* Side effects (clipboard writes via `pyperclip.copy`, socket sends, the
  non-verbose `print` calls) are reified as an `Effect` trace.  Verbose-only
  log lines are not traced.
-/

namespace NexusClip

/-- Wire literal `DISCOVERY_MESSAGE` (daemon line 56). -/
def DISCOVERY_MESSAGE : List Char := "NEXUSCLIP_DISCOVER".data

/-- Wire token `CLIPBOARD_PREFIX` (daemon line 57). -/
def CLIPBOARD_PRE : List Char := "NEXUSCLIP_CLIP:".data

/-- Wire token `ACK_PREFIX` (daemon line 58). -/
def ACK_PRE : List Char := "NEXUSCLIP_ACK:".data

/-- Wire token `DEVICE_PREFIX` (daemon line 59). -/
def DEVICE_PRE : List Char := "NEXUSCLIP_DEVICE:".data

/-- Wire literal `HEARTBEAT_MESSAGE` (daemon line 60). -/
def HEARTBEAT_MESSAGE : List Char := "NEXUSCLIP_HEARTBEAT".data

/-- `pre.startsWithL l` models Python `l.startswith(pre)` on strings. -/
def startsWithL : List Char → List Char → Bool
  | [], _ => true
  | _ :: _, [] => false
  | p :: ps, c :: cs => if p = c then startsWithL ps cs else false

/-- Python `s.split(sep)` for a one-character separator and no maxsplit
(the form used at daemon line 243): `''.split(sep) = ['']`, separators are
not kept, empty fields are kept. -/
def splitChar (sep : Char) : List Char → List (List Char)
  | [] => [[]]
  | c :: cs =>
    let r := splitChar sep cs
    if c = sep then [] :: r
    else
      match r with
      | [] => [[c]]
      | h :: t => (c :: h) :: t

/-- The base64 alphabet, as Python's `base64` module uses it:
index `n < 64` to its character. -/
def b64Char (n : Nat) : Char :=
  if n < 26 then Char.ofNat (65 + n)
  else if n < 52 then Char.ofNat (71 + n)
  else if n < 62 then Char.ofNat (n - 4)
  else if n = 62 then '+' else '/'

/-- Inverse of the base64 alphabet: `none` for characters outside it. -/
def b64DecChar (c : Char) : Option Nat :=
  if 'A' ≤ c ∧ c ≤ 'Z' then some (c.toNat - 65)
  else if 'a' ≤ c ∧ c ≤ 'z' then some (c.toNat - 97 + 26)
  else if '0' ≤ c ∧ c ≤ '9' then some (c.toNat - 48 + 52)
  else if c = '+' then some 62
  else if c = '/' then some 63
  else none

/-- Models Python `base64.b64encode(bs).decode('utf-8')` (daemon line 318):
bytes three at a time into four alphabet characters, `=`-padded final
chunk. -/
def b64encodeBytes : List Nat → List Char
  | [] => []
  | [a] => [b64Char (a / 4), b64Char (a % 4 * 16), '=', '=']
  | [a, b] => [b64Char (a / 4), b64Char (a % 4 * 16 + b / 16), b64Char (b % 16 * 4), '=']
  | a :: b :: c :: rest =>
    b64Char (a / 4) :: b64Char (a % 4 * 16 + b / 16) ::
      b64Char (b % 16 * 4 + c / 64) :: b64Char (c % 64) :: b64encodeBytes rest

/-- Characters `base64.b64decode` consumes; with the default
`validate=False` every other character is discarded before decoding. -/
def isB64Keep (c : Char) : Bool := (b64DecChar c).isSome || c = '='

/-- Strict base64 quad decoding: four characters to three bytes, `=`
padding only at the very end, anything else rejected. -/
def b64Quads : List Char → Option (List Nat)
  | [] => some []
  | c1 :: c2 :: c3 :: c4 :: rest =>
    match b64DecChar c1, b64DecChar c2 with
    | some a, some b =>
      if c3 = '=' then
        if c4 = '=' ∧ rest = [] then some [a * 4 + b / 16] else none
      else
        match b64DecChar c3 with
        | some c =>
          if c4 = '=' then
            if rest = [] then some [a * 4 + b / 16, b % 16 * 16 + c / 4] else none
          else
            match b64DecChar c4 with
            | some d =>
              match b64Quads rest with
              | some t =>
                some ((a * 4 + b / 16) :: (b % 16 * 16 + c / 4) :: (c % 4 * 64 + d) :: t)
              | none => none
            | none => none
        | none => none
    | _, _ => none
  | _ => none

/-- Models Python `base64.b64decode(s)` (daemon line 261), `none` in place
of the `binascii.Error` the daemon catches: characters outside the alphabet
are discarded (the library's default mode), then the rest must be complete
quads with padding only at the end.  Inputs the real library additionally
tolerates (padding mid-stream) never arise from the daemon's own encoder. -/
def b64decodeChars (cs : List Char) : Option (List Nat) :=
  b64Quads (cs.filter isB64Keep)

/-- Models Python `bytes.decode('utf-8')` (daemon lines 194 and 261),
`none` in place of `UnicodeDecodeError`: strict RFC-3629 decoding, bytes to
code points, rejecting overlong forms, surrogates, values above `0x10FFFF`,
truncated sequences and stray continuation bytes. -/
def utf8Decode : List Nat → Option (List Nat)
  | [] => some []
  | b1 :: rest =>
    if b1 < 128 then
      match utf8Decode rest with
      | some cs => some (b1 :: cs)
      | none => none
    else if b1 < 194 then none
    else if b1 < 224 then
      match rest with
      | b2 :: rest2 =>
        if 128 ≤ b2 ∧ b2 < 192 then
          match utf8Decode rest2 with
          | some cs => some (((b1 - 192) * 64 + (b2 - 128)) :: cs)
          | none => none
        else none
      | [] => none
    else if b1 < 240 then
      match rest with
      | b2 :: b3 :: rest2 =>
        if (128 ≤ b2 ∧ b2 < 192) ∧ (128 ≤ b3 ∧ b3 < 192) ∧
            (b1 = 224 → 160 ≤ b2) ∧ (b1 = 237 → b2 < 160) then
          match utf8Decode rest2 with
          | some cs => some (((b1 - 224) * 4096 + (b2 - 128) * 64 + (b3 - 128)) :: cs)
          | none => none
        else none
      | _ => none
    else if b1 < 245 then
      match rest with
      | b2 :: b3 :: b4 :: rest2 =>
        if (128 ≤ b2 ∧ b2 < 192) ∧ (128 ≤ b3 ∧ b3 < 192) ∧ (128 ≤ b4 ∧ b4 < 192) ∧
            (b1 = 240 → 144 ≤ b2) ∧ (b1 = 244 → b2 < 144) then
          match utf8Decode rest2 with
          | some cs =>
            some (((b1 - 240) * 262144 + (b2 - 128) * 4096 + (b3 - 128) * 64 + (b4 - 128)) :: cs)
          | none => none
        else none
      | _ => none
    else none

/-- Models Python `str.encode('utf-8')` (daemon lines 318, 328, 337):
code points to bytes. -/
def utf8Encode : List Nat → List Nat
  | [] => []
  | c :: cs =>
    (if c < 128 then [c]
     else if c < 2048 then [192 + c / 64, 128 + c % 64]
     else if c < 65536 then [224 + c / 4096, 128 + c / 64 % 64, 128 + c % 64]
     else [240 + c / 262144, 128 + c / 4096 % 64, 128 + c / 64 % 64, 128 + c % 64]) ++
      utf8Encode cs

/-- The `Device` dataclass (daemon lines 78-87): a discovered peer. -/
structure Device where
  address : String
  platform : List Char
  name : List Char
  last_seen : Nat
deriving DecidableEq

/-- The daemon's protocol-relevant mutable state (daemon lines 101-109):
the clipboard snapshot `last_clipboard` (code points of the Python string,
initially `""`) and the `discovered_devices` dict in insertion order.
The socket handle, running flag and mDNS registration are I/O plumbing
outside the protocol state. -/
structure DaemonState where
  last_clipboard : List Nat
  discovered_devices : List (String × Device)
deriving DecidableEq

/-- One observable side effect of the protocol core: a local clipboard
write (`pyperclip.copy`), a unicast send, a broadcast send, or one of the
always-on `print` notifications. -/
inductive Effect where
  | clipWrite (content : List Nat)
  | sendTo (frame : List Char) (addr : String)
  | bcast (frame : List Char)
  | printDiscovered (d : Device)
  | printReceived (content : List Nat)
  | printSent (content : List Nat)
  | printDisconnected (d : Device)
deriving DecidableEq

/-- Python `dict.get`-style lookup on the association list (first match;
keys are unique in a dict). -/
def dictLookup (k : String) : List (String × Device) → Option Device
  | [] => none
  | p :: ps => if p.1 = k then some p.2 else dictLookup k ps

/-- Python `d[k] = v`: overwrite in place when the key exists, else append
at the end (dicts preserve insertion order). -/
def dictInsert (k : String) (v : Device) (d : List (String × Device)) :
    List (String × Device) :=
  if (dictLookup k d).isSome then d.map fun p => if p.1 = k then (k, v) else p
  else d ++ [(k, v)]

/-- Python `d.pop(k, None)`'s removal part: drop the entry with key `k`. -/
def dictErase (k : String) : List (String × Device) → List (String × Device)
  | [] => []
  | p :: ps => if p.1 = k then dictErase k ps else p :: dictErase k ps

/-- In-place mutation `d[k].last_seen = now` (daemon line 286). -/
def dictTouch (k : String) (now : Nat) (d : List (String × Device)) :
    List (String × Device) :=
  d.map fun p => if p.1 = k then (p.1, { p.2 with last_seen := now }) else p

/-- `_respond_to_discovery` (daemon lines 230-238): unicast
`DEVICE_PREFIX + "Linux|" + hostname` back to the sender; no state change.
`hostname` stands for `platform.node() or "Linux"`. -/
def respondToDiscovery (hostname : List Char) (sender : String) (s : DaemonState) :
    DaemonState × List Effect :=
  (s, [Effect.sendTo (DEVICE_PRE ++ "Linux|".data ++ hostname) sender])

/-- `_handle_device_response` (daemon lines 240-255): strip
`DEVICE_PREFIX`, split the rest on `'|'` with no maxsplit, and when at
least two fields result, store `Device(sender, parts[0], parts[1], now)`
under the sender's address and print the discovery line; otherwise (or on
a parse error) do nothing. -/
def handleDeviceResponse (message : List Char) (sender : String) (now : Nat)
    (s : DaemonState) : DaemonState × List Effect :=
  let parts := splitChar '|' (message.drop DEVICE_PRE.length)
  if 2 ≤ parts.length then
    let device : Device := ⟨sender, parts.getD 0 [], parts.getD 1 [], now⟩
    ({ s with discovered_devices := dictInsert sender device s.discovered_devices },
      [Effect.printDiscovered device])
  else (s, [])

/-- `_handle_clipboard` (daemon lines 257-275): strip `CLIPBOARD_PREFIX`,
base64-decode then UTF-8-decode the rest (any failure is swallowed: no
write, no ack, no state change), and under the clipboard lock apply the
content only when it differs from `last_clipboard`, updating the snapshot,
writing the local clipboard, unicasting `ACK_PREFIX + "RECEIVED"` to the
sender and printing the received notice. -/
def handleClipboard (message : List Char) (sender : String) (s : DaemonState) :
    DaemonState × List Effect :=
  match b64decodeChars (message.drop CLIPBOARD_PRE.length) with
  | none => (s, [])
  | some bytes =>
    match utf8Decode bytes with
    | none => (s, [])
    | some content =>
      if content ≠ s.last_clipboard then
        ({ s with last_clipboard := content },
          [Effect.clipWrite content,
            Effect.sendTo (ACK_PRE ++ "RECEIVED".data) sender,
            Effect.printReceived content])
      else (s, [])

/-- `_handle_heartbeat` (daemon lines 283-286): refresh `last_seen` for a
known sender, silently ignore an unknown one. -/
def handleHeartbeat (sender : String) (now : Nat) (s : DaemonState) :
    DaemonState × List Effect :=
  if (dictLookup sender s.discovered_devices).isSome then
    ({ s with discovered_devices := dictTouch sender now s.discovered_devices }, [])
  else (s, [])

/-- `_handle_message` (daemon lines 202-228): dispatch one inbound frame by
prefix, in source order; `_handle_ack` (lines 277-281) only logs when
verbose, and an unrecognized frame falls through every branch. -/
def handleMessage (hostname : List Char) (now : Nat) (message : List Char)
    (sender : String) (s : DaemonState) : DaemonState × List Effect :=
  if message = DISCOVERY_MESSAGE then respondToDiscovery hostname sender s
  else if startsWithL DEVICE_PRE message then handleDeviceResponse message sender now s
  else if startsWithL CLIPBOARD_PRE message then handleClipboard message sender s
  else if startsWithL ACK_PRE message then (s, [])
  else if message = HEARTBEAT_MESSAGE then handleHeartbeat sender now s
  else (s, [])

/-- `_broadcast_clipboard` (daemon lines 316-323): broadcast
`CLIPBOARD_PREFIX + base64(utf8(content))` (the `_broadcast` send attempt,
daemon lines 325-332, whose socket errors are only logged) and print the
sent notice.  No size check and no truncation anywhere on this path. -/
def broadcastClipboard (content : List Nat) : List Effect :=
  [Effect.bcast (CLIPBOARD_PRE ++ b64encodeBytes (utf8Encode content)),
    Effect.printSent content]

/-- One iteration body of `_clipboard_monitor_loop` (daemon lines 288-303)
with `current` the text `pyperclip.paste()` returned: under the lock, if
`current` is truthy (non-empty) and differs from the snapshot, update the
snapshot first and then broadcast. -/
def pollStep (current : List Nat) (s : DaemonState) : DaemonState × List Effect :=
  if current ≠ [] ∧ current ≠ s.last_clipboard then
    ({ s with last_clipboard := current }, broadcastClipboard current)
  else (s, [])

/-- `_cleanup_stale_devices` (daemon lines 343-356) on the device dict:
collect the addresses whose `now - last_seen` exceeds the 120-second stale
timeout, then pop each (with a `None` default) and print the disconnect
notice for every device actually removed. -/
def cleanupStale (now : Nat) (d : List (String × Device)) :
    List (String × Device) × List Effect :=
  let staleA := (d.filter fun p => 120 < now - p.2.last_seen).map Prod.fst
  staleA.foldl
    (fun acc addr =>
      match dictLookup addr acc.1 with
      | some dev => (dictErase addr acc.1, acc.2 ++ [Effect.printDisconnected dev])
      | none => acc)
    (d, [])

/-- The five wire message kinds of the protocol (spec data model), plus the
implicit `unknown` for any frame `_handle_message` lets fall through. -/
inductive WireMessage where
  | discover
  | deviceAnnounce (platform : List Char) (name : List Char)
  | clipboardPayload (bytes : List Nat)
  | ack (status : List Char)
  | heartbeat
  | unknown
deriving DecidableEq

/-- Frame production, one clause per send site of the daemon:
`DISCOVERY_MESSAGE` (what peers broadcast), `DEVICE_PREFIX + platform +
"|" + name` (line 234), `CLIPBOARD_PREFIX + base64(bytes)` (lines
318-319), `ACK_PREFIX + status` (line 269), `HEARTBEAT_MESSAGE` (line
309).  `unknown` has no frame; it encodes to the empty frame. -/
def encodeMsg : WireMessage → List Char
  | WireMessage.discover => DISCOVERY_MESSAGE
  | WireMessage.deviceAnnounce platform name => DEVICE_PRE ++ platform ++ '|' :: name
  | WireMessage.clipboardPayload bytes => CLIPBOARD_PRE ++ b64encodeBytes bytes
  | WireMessage.ack status => ACK_PRE ++ status
  | WireMessage.heartbeat => HEARTBEAT_MESSAGE
  | WireMessage.unknown => []

/-- Frame classification and field extraction, transcribing the dispatch of
`_handle_message` (lines 202-228) plus the parsing done inside
`_handle_device_response` (unlimited `split('|')`, at least two fields,
`parts[0]`/`parts[1]`) and `_handle_clipboard` (base64 decode; a frame the
handler would drop decodes to `unknown`). -/
def decodeMsg (f : List Char) : WireMessage :=
  if f = DISCOVERY_MESSAGE then WireMessage.discover
  else if startsWithL DEVICE_PRE f then
    let parts := splitChar '|' (f.drop DEVICE_PRE.length)
    if 2 ≤ parts.length then WireMessage.deviceAnnounce (parts.getD 0 []) (parts.getD 1 [])
    else WireMessage.unknown
  else if startsWithL CLIPBOARD_PRE f then
    match b64decodeChars (f.drop CLIPBOARD_PRE.length) with
    | some bytes => WireMessage.clipboardPayload bytes
    | none => WireMessage.unknown
  else if startsWithL ACK_PRE f then WireMessage.ack (f.drop ACK_PRE.length)
  else if f = HEARTBEAT_MESSAGE then WireMessage.heartbeat
  else WireMessage.unknown

/-- Effect-trace projection: the local clipboard writes, in order. -/
def clipWrites (effs : List Effect) : List (List Nat) :=
  effs.filterMap fun e =>
    match e with
    | Effect.clipWrite c => some c
    | _ => none

/-- Effect-trace projection: the unicast sends `(frame, address)`, in
order. -/
def sendsOf (effs : List Effect) : List (List Char × String) :=
  effs.filterMap fun e =>
    match e with
    | Effect.sendTo f a => some (f, a)
    | _ => none

/-- Effect-trace projection: the broadcast frames, in order. -/
def bcasts (effs : List Effect) : List (List Char) :=
  effs.filterMap fun e =>
    match e with
    | Effect.bcast f => some f
    | _ => none

/-- Effect-trace projection: the devices announced as discovered, in
order. -/
def discoveredLogs (effs : List Effect) : List Device :=
  effs.filterMap fun e =>
    match e with
    | Effect.printDiscovered d => some d
    | _ => none

/-! ### Helper lemmas about the embedded primitives -/

theorem splitChar_no_sep (sep : Char) :
    ∀ (l : List Char), sep ∉ l → splitChar sep l = [l]
  | [], _ => rfl
  | c :: cs, h => by
    have hc : ¬(c = sep) := fun e => h (e ▸ List.mem_cons_self c cs)
    have ih := splitChar_no_sep sep cs fun hm => h (List.mem_cons_of_mem c hm)
    simp [splitChar, ih, hc]

theorem splitChar_append (sep : Char) :
    ∀ (p n : List Char), sep ∉ p →
      splitChar sep (p ++ sep :: n) = p :: splitChar sep n
  | [], n, _ => by simp [splitChar]
  | c :: p', n, h => by
    have hc : ¬(c = sep) := fun e => h (e ▸ List.mem_cons_self c p')
    have ih := splitChar_append sep p' n fun hm => h (List.mem_cons_of_mem c hm)
    simp [splitChar, ih, hc]

theorem b64DecChar_b64Char : ∀ n < 64, b64DecChar (b64Char n) = some n := by decide

theorem b64Char_ne_pad : ∀ n < 64, ¬(b64Char n = '=') := by decide

theorem isB64Keep_b64Char : ∀ n < 64, isB64Keep (b64Char n) = true := by decide

theorem isB64Keep_pad : isB64Keep '=' = true := rfl

theorem filter_b64encodeBytes :
    ∀ (bs : List Nat), (∀ b ∈ bs, b < 256) →
      (b64encodeBytes bs).filter isB64Keep = b64encodeBytes bs
  | [], _ => rfl
  | [a], h => by
    have ha : a < 256 := h a (by simp)
    simp [b64encodeBytes, List.filter_cons, isB64Keep_pad,
      isB64Keep_b64Char _ (show a / 4 < 64 by omega),
      isB64Keep_b64Char _ (show a % 4 * 16 < 64 by omega)]
  | [a, b], h => by
    have ha : a < 256 := h a (by simp)
    have hb : b < 256 := h b (by simp)
    simp [b64encodeBytes, List.filter_cons, isB64Keep_pad,
      isB64Keep_b64Char _ (show a / 4 < 64 by omega),
      isB64Keep_b64Char _ (show a % 4 * 16 + b / 16 < 64 by omega),
      isB64Keep_b64Char _ (show b % 16 * 4 < 64 by omega)]
  | a :: b :: c :: rest, h => by
    have ha : a < 256 := h a (by simp)
    have hb : b < 256 := h b (by simp)
    have hc : c < 256 := h c (by simp)
    have ih := filter_b64encodeBytes rest fun x hx => h x (by simp [hx])
    simp [b64encodeBytes, List.filter_cons, ih, isB64Keep_pad,
      isB64Keep_b64Char _ (show a / 4 < 64 by omega),
      isB64Keep_b64Char _ (show a % 4 * 16 + b / 16 < 64 by omega),
      isB64Keep_b64Char _ (show b % 16 * 4 + c / 64 < 64 by omega),
      isB64Keep_b64Char _ (show c % 64 < 64 by omega)]

theorem b64Quads_encode :
    ∀ (bs : List Nat), (∀ b ∈ bs, b < 256) → b64Quads (b64encodeBytes bs) = some bs
  | [], _ => rfl
  | [a], h => by
    have ha : a < 256 := h a (by simp)
    simp only [b64encodeBytes, b64Quads,
      b64DecChar_b64Char _ (show a / 4 < 64 by omega),
      b64DecChar_b64Char _ (show a % 4 * 16 < 64 by omega)]
    simp
    omega
  | [a, b], h => by
    have ha : a < 256 := h a (by simp)
    have hb : b < 256 := h b (by simp)
    simp only [b64encodeBytes, b64Quads,
      b64DecChar_b64Char _ (show a / 4 < 64 by omega),
      b64DecChar_b64Char _ (show a % 4 * 16 + b / 16 < 64 by omega),
      b64DecChar_b64Char _ (show b % 16 * 4 < 64 by omega),
      if_neg (b64Char_ne_pad _ (show b % 16 * 4 < 64 by omega))]
    simp
    omega
  | a :: b :: c :: rest, h => by
    have ha : a < 256 := h a (by simp)
    have hb : b < 256 := h b (by simp)
    have hc : c < 256 := h c (by simp)
    have ih := b64Quads_encode rest fun x hx => h x (by simp [hx])
    simp only [b64encodeBytes, b64Quads,
      b64DecChar_b64Char _ (show a / 4 < 64 by omega),
      b64DecChar_b64Char _ (show a % 4 * 16 + b / 16 < 64 by omega),
      b64DecChar_b64Char _ (show b % 16 * 4 + c / 64 < 64 by omega),
      b64DecChar_b64Char _ (show c % 64 < 64 by omega),
      if_neg (b64Char_ne_pad _ (show b % 16 * 4 + c / 64 < 64 by omega)),
      if_neg (b64Char_ne_pad _ (show c % 64 < 64 by omega)), ih]
    simp
    omega

/-- Base64 round trip, as the daemon composes it: decoding the encoder's
output recovers the bytes. -/
theorem b64_roundtrip (bs : List Nat) (h : ∀ b ∈ bs, b < 256) :
    b64decodeChars (b64encodeBytes bs) = some bs := by
  rw [b64decodeChars, filter_b64encodeBytes bs h, b64Quads_encode bs h]

theorem length_b64encodeBytes :
    ∀ (bs : List Nat), (b64encodeBytes bs).length = 4 * ((bs.length + 2) / 3)
  | [] => rfl
  | [_] => by simp [b64encodeBytes]
  | [_, _] => by simp [b64encodeBytes]
  | _ :: _ :: _ :: rest => by
    have ih := length_b64encodeBytes rest
    simp only [b64encodeBytes, List.length_cons, ih]
    omega

theorem utf8Encode_replicate_a :
    ∀ n, utf8Encode (List.replicate n 97) = List.replicate n 97
  | 0 => rfl
  | n + 1 => by
    simp [List.replicate_succ, utf8Encode, utf8Encode_replicate_a n]

/-! ### Helper lemmas about the device dict -/

theorem dictLookup_mem {k : String} {v : Device} :
    ∀ {d : List (String × Device)}, dictLookup k d = some v → (k, v) ∈ d
  | [], h => by simp [dictLookup] at h
  | p :: ps, h => by
    obtain ⟨a, b⟩ := p
    by_cases hk : a = k
    · simp only [dictLookup] at h
      rw [if_pos hk] at h
      injection h with h2
      subst hk
      subst h2
      exact List.mem_cons_self _ _
    · simp only [dictLookup] at h
      rw [if_neg hk] at h
      exact List.mem_cons_of_mem _ (dictLookup_mem h)

theorem mem_dictLookup {k : String} {v : Device} :
    ∀ {d : List (String × Device)}, (d.map Prod.fst).Nodup → (k, v) ∈ d →
      dictLookup k d = some v
  | [], _, hm => by simp at hm
  | p :: ps, hnd, hm => by
    rcases List.mem_cons.mp hm with h | h
    · simp [dictLookup, ← h]
    · have hk : ¬(p.1 = k) := by
        intro e
        have : k ∈ ps.map Prod.fst := List.mem_map.mpr ⟨(k, v), h, rfl⟩
        simp only [List.map_cons, List.nodup_cons] at hnd
        exact hnd.1 (e ▸ this)
      have hnd' : (ps.map Prod.fst).Nodup := by
        simp only [List.map_cons, List.nodup_cons] at hnd
        exact hnd.2
      simp [dictLookup, if_neg hk, mem_dictLookup hnd' h]

theorem dictErase_eq_filter (k : String) :
    ∀ (d : List (String × Device)), dictErase k d = d.filter fun p => p.1 != k
  | [] => rfl
  | p :: ps => by
    by_cases hk : p.1 = k <;>
      simp [dictErase, hk, List.filter_cons, dictErase_eq_filter k ps]

theorem dictLookup_dictErase_ne {k k' : String} (h : ¬(k' = k)) :
    ∀ (d : List (String × Device)), dictLookup k' (dictErase k d) = dictLookup k' d
  | [] => rfl
  | p :: ps => by
    by_cases hk : p.1 = k
    · rw [dictErase, if_pos hk, dictLookup_dictErase_ne h ps, dictLookup,
        if_neg (fun e : p.1 = k' => h (e ▸ hk))]
    · by_cases hk' : p.1 = k'
      · rw [dictErase, if_neg hk, dictLookup, if_pos hk', dictLookup, if_pos hk']
      · rw [dictErase, if_neg hk, dictLookup, if_neg hk', dictLookup, if_neg hk',
          dictLookup_dictErase_ne h ps]

theorem keysNodup_dictErase {k : String} {d : List (String × Device)}
    (hnd : (d.map Prod.fst).Nodup) : ((dictErase k d).map Prod.fst).Nodup := by
  rw [dictErase_eq_filter]
  exact ((List.filter_sublist d).map Prod.fst).nodup hnd

theorem eq_of_keysNodup {d : List (String × Device)}
    (hnd : (d.map Prod.fst).Nodup) {p q : String × Device}
    (hp : p ∈ d) (hq : q ∈ d) (h : p.1 = q.1) : p = q :=
  List.inj_on_of_nodup_map hnd hp hq h

theorem filterMap_eq_map_of_mem {α β : Type} {l : List α} {f : α → Option β}
    {g : α → β} (h : ∀ x ∈ l, f x = some (g x)) : l.filterMap f = l.map g := by
  induction l with
  | nil => rfl
  | cons x xs ih =>
    rw [List.filterMap_cons, h x (by simp), List.map_cons,
      ih fun y hy => h y (by simp [hy])]

theorem dictLookup_dictInsert_self (k : String) (v : Device) :
    ∀ (d : List (String × Device)), dictLookup k (dictInsert k v d) = some v := by
  intro d
  rw [dictInsert]
  by_cases hs : (dictLookup k d).isSome
  · rw [if_pos hs]
    induction d with
    | nil => simp [dictLookup] at hs
    | cons p ps ih =>
      by_cases hk : p.1 = k
      · simp [dictLookup, hk]
      · simp only [dictLookup, if_neg hk, Option.isSome] at hs
        simp [dictLookup, hk, ih hs]
  · rw [if_neg hs]
    induction d with
    | nil => simp [dictLookup]
    | cons p ps ih =>
      have hk : ¬(p.1 = k) := by
        intro e
        simp [dictLookup, if_pos e] at hs
      simp only [dictLookup, if_neg hk] at hs
      show dictLookup k (p :: (ps ++ [(k, v)])) = some v
      simp only [dictLookup, if_neg hk]
      exact ih hs

theorem filterMap_congr_mem {α β : Type} {l : List α} {f g : α → Option β}
    (h : ∀ x ∈ l, f x = g x) : l.filterMap f = l.filterMap g := by
  induction l with
  | nil => rfl
  | cons x xs ih =>
    rw [List.filterMap_cons, List.filterMap_cons, h x (by simp),
      ih fun y hy => h y (by simp [hy])]

theorem cleanup_fold :
    ∀ (ks : List String) (d : List (String × Device)) (es : List Effect),
      (d.map Prod.fst).Nodup → ks.Nodup → (∀ k ∈ ks, (dictLookup k d).isSome) →
      ks.foldl
        (fun acc addr =>
          match dictLookup addr acc.1 with
          | some dev => (dictErase addr acc.1, acc.2 ++ [Effect.printDisconnected dev])
          | none => acc)
        (d, es) =
      (d.filter fun p => decide (p.1 ∉ ks),
        es ++ ks.filterMap fun k => (dictLookup k d).map Effect.printDisconnected)
  | [], d, es, _, _, _ => by simp
  | k :: ks, d, es, hnd, hks, hmem => by
    obtain ⟨v, hv⟩ := Option.isSome_iff_exists.mp (hmem k (by simp))
    have hk_not : k ∉ ks := (List.nodup_cons.mp hks).1
    have hks' : ks.Nodup := (List.nodup_cons.mp hks).2
    have hnd' := keysNodup_dictErase (k := k) hnd
    have hmem' : ∀ k' ∈ ks, (dictLookup k' (dictErase k d)).isSome := by
      intro k' hk'
      rw [dictLookup_dictErase_ne fun e => hk_not (by rw [← e]; exact hk')]
      exact hmem k' (by simp [hk'])
    rw [List.foldl_cons]
    dsimp only
    rw [hv]
    rw [cleanup_fold ks (dictErase k d) (es ++ [Effect.printDisconnected v]) hnd' hks' hmem']
    have hfst : (dictErase k d).filter (fun p => decide (p.1 ∉ ks)) =
        d.filter fun p => decide (p.1 ∉ k :: ks) := by
      rw [dictErase_eq_filter, List.filter_filter]
      refine List.filter_congr fun p _ => ?_
      by_cases h1 : p.1 = k <;> by_cases h2 : p.1 ∈ ks <;> simp [h1, h2]
    have hsnd : es ++ [Effect.printDisconnected v] ++
        (ks.filterMap fun k' => (dictLookup k' (dictErase k d)).map Effect.printDisconnected) =
        es ++ (k :: ks).filterMap fun k' => (dictLookup k' d).map Effect.printDisconnected := by
      rw [List.filterMap_cons, hv]
      rw [filterMap_congr_mem fun k' hk' =>
        by rw [dictLookup_dictErase_ne fun e => hk_not (by rw [← e]; exact hk')]]
      simp
    rw [hfst, hsnd]

/-- Characterization of `_cleanup_stale_devices` when the dict's keys are
distinct (always true of a Python dict): it keeps exactly the fresh
entries and reports exactly the stale ones, in table order. -/
theorem cleanupStale_eq (now : Nat) (d : List (String × Device))
    (hnd : (d.map Prod.fst).Nodup) :
    cleanupStale now d =
      (d.filter fun p => decide (now - p.2.last_seen ≤ 120),
        (d.filter fun p => decide (120 < now - p.2.last_seen)).map
          fun p => Effect.printDisconnected p.2) := by
  have hsub : (((d.filter fun p => decide (120 < now - p.2.last_seen)).map
      Prod.fst).Sublist (d.map Prod.fst)) :=
    (List.filter_sublist d).map Prod.fst
  have hks : ((d.filter fun p => decide (120 < now - p.2.last_seen)).map
      Prod.fst).Nodup := hsub.nodup hnd
  have hlook : ∀ p ∈ d.filter fun p => decide (120 < now - p.2.last_seen),
      dictLookup (Prod.fst p) d = some p.2 := by
    intro p hp
    exact mem_dictLookup hnd (by
      have := List.mem_of_mem_filter hp
      simpa using this)
  have hmem : ∀ k ∈ (d.filter fun p => decide (120 < now - p.2.last_seen)).map
      Prod.fst, (dictLookup k d).isSome := by
    intro k hk
    obtain ⟨p, hp, rfl⟩ := List.mem_map.mp hk
    rw [hlook p hp]
    rfl
  unfold cleanupStale
  rw [cleanup_fold _ d [] hnd hks hmem]
  have hfst : (d.filter fun p =>
      decide (p.1 ∉ (d.filter fun q => decide (120 < now - q.2.last_seen)).map Prod.fst)) =
      d.filter fun p => decide (now - p.2.last_seen ≤ 120) := by
    refine List.filter_congr fun p hp => ?_
    by_cases hst : 120 < now - p.2.last_seen
    · have hin : p.1 ∈ (d.filter fun q => decide (120 < now - q.2.last_seen)).map
          Prod.fst := List.mem_map.mpr ⟨p, List.mem_filter.mpr ⟨hp, by simpa using hst⟩, rfl⟩
      simp [hin]
      omega
    · have hout : p.1 ∉ (d.filter fun q => decide (120 < now - q.2.last_seen)).map
          Prod.fst := by
        intro hin
        obtain ⟨q, hq, hq1⟩ := List.mem_map.mp hin
        have hqd := List.mem_filter.mp hq
        have : q = p := eq_of_keysNodup hnd hqd.1 hp (by rw [hq1])
        subst this
        exact hst (by simpa using hqd.2)
      simp [hout]
      omega
  have hsnd : ((d.filter fun q => decide (120 < now - q.2.last_seen)).map
      Prod.fst).filterMap (fun k => (dictLookup k d).map Effect.printDisconnected) =
      (d.filter fun p => decide (120 < now - p.2.last_seen)).map
        fun p => Effect.printDisconnected p.2 := by
    rw [List.filterMap_map]
    exact filterMap_eq_map_of_mem fun p hp => by
      simp [Function.comp_apply, hlook p hp]
  rw [hfst, hsnd]
  simp

theorem dictLookup_dictTouch_self (k : String) (now : Nat) :
    ∀ (d : List (String × Device)),
      dictLookup k (dictTouch k now d) =
        (dictLookup k d).map fun dev => { dev with last_seen := now }
  | [] => rfl
  | p :: ps => by
    by_cases hk : p.1 = k
    · simp [dictTouch, dictLookup, hk]
    · simp only [dictTouch, List.map_cons, if_neg hk]
      simp only [dictLookup, if_neg hk]
      exact dictLookup_dictTouch_self k now ps

/-! ### Definitional bridges: dispatch of `_handle_message` on prefixed
frames, and parsing of the codec, reduce by computation. -/

theorem handleMessage_clip (hostname : List Char) (now : Nat) (rest : List Char)
    (sender : String) (s : DaemonState) :
    handleMessage hostname now (CLIPBOARD_PRE ++ rest) sender s =
      handleClipboard (CLIPBOARD_PRE ++ rest) sender s := rfl

theorem handleMessage_device (hostname : List Char) (now : Nat) (rest : List Char)
    (sender : String) (s : DaemonState) :
    handleMessage hostname now (DEVICE_PRE ++ rest) sender s =
      handleDeviceResponse (DEVICE_PRE ++ rest) sender now s := rfl

theorem handleMessage_heartbeat (hostname : List Char) (now : Nat)
    (sender : String) (s : DaemonState) :
    handleMessage hostname now HEARTBEAT_MESSAGE sender s =
      handleHeartbeat sender now s := rfl

theorem drop_clip (rest : List Char) :
    (CLIPBOARD_PRE ++ rest).drop CLIPBOARD_PRE.length = rest := rfl

theorem drop_device (rest : List Char) :
    (DEVICE_PRE ++ rest).drop DEVICE_PRE.length = rest := rfl

theorem decodeMsg_device (rest : List Char) :
    decodeMsg (DEVICE_PRE ++ rest) =
      (if 2 ≤ (splitChar '|' rest).length then
        WireMessage.deviceAnnounce ((splitChar '|' rest).getD 0 [])
          ((splitChar '|' rest).getD 1 [])
      else WireMessage.unknown) := rfl

theorem decodeMsg_clip (rest : List Char) :
    decodeMsg (CLIPBOARD_PRE ++ rest) =
      (match b64decodeChars rest with
       | some bytes => WireMessage.clipboardPayload bytes
       | none => WireMessage.unknown) := rfl

/-! ### Claim theorems -/

/-- C1 counterexample: the claim's max-count-2 split rule fails on the
code.  `_handle_device_response` (line 243) splits with no maxsplit, so
encoding `DeviceAnnounce{platform = "Linux", name = "a|b"}` and decoding
the frame yields the truncated name `"a"`, not `"a|b"`. -/
theorem C1_split_truncates_name :
    decodeMsg (encodeMsg (WireMessage.deviceAnnounce "Linux".data "a|b".data)) =
      WireMessage.deviceAnnounce "Linux".data "a".data ∧
    ¬(decodeMsg (encodeMsg (WireMessage.deviceAnnounce "Linux".data "a|b".data)) =
      WireMessage.deviceAnnounce "Linux".data "a|b".data) := by
  decide

/-- C1 (amended): `decode (encode m) = m` for every message of the five
wire kinds, provided a `DeviceAnnounce`'s platform and name contain no
`'|'` (the unlimited split truncates a name at its first `'|'`) and a
`ClipboardPayload` carries bytes (values below 256). -/
theorem C1_codec_roundtrip (m : WireMessage)
    (hm : ¬(m = WireMessage.unknown))
    (hdev : ∀ p n, m = WireMessage.deviceAnnounce p n → '|' ∉ p ∧ '|' ∉ n)
    (hbytes : ∀ bs, m = WireMessage.clipboardPayload bs → ∀ b ∈ bs, b < 256) :
    decodeMsg (encodeMsg m) = m := by
  cases m with
  | discover => rfl
  | heartbeat => rfl
  | ack status => rfl
  | unknown => exact absurd rfl hm
  | deviceAnnounce p n =>
    obtain ⟨hp, hn⟩ := hdev p n rfl
    show decodeMsg (DEVICE_PRE ++ (p ++ '|' :: n)) = _
    rw [decodeMsg_device, splitChar_append '|' p n hp, splitChar_no_sep '|' n hn]
    simp
  | clipboardPayload bs =>
    show decodeMsg (CLIPBOARD_PRE ++ b64encodeBytes bs) = _
    rw [decodeMsg_clip, b64_roundtrip bs (hbytes bs rfl)]

/-- C1 witness: a concrete `DeviceAnnounce` with a pipe-free name and a
concrete byte payload both round-trip. -/
theorem C1_codec_roundtrip_witness :
    decodeMsg (encodeMsg (WireMessage.deviceAnnounce "Linux".data "myhost".data)) =
      WireMessage.deviceAnnounce "Linux".data "myhost".data ∧
    decodeMsg (encodeMsg (WireMessage.clipboardPayload [0, 255, 10])) =
      WireMessage.clipboardPayload [0, 255, 10] := by
  constructor
  · exact C1_codec_roundtrip _ (by decide)
      (fun p n h => by
        injection h with h1 h2
        subst h1
        subst h2
        exact ⟨by decide, by decide⟩)
      (fun bs h => by cases h)
  · exact C1_codec_roundtrip _ (by decide)
      (fun p n h => by cases h)
      (fun bs h => by
        injection h with h1
        subst h1
        decide)

/-- C2: handling the same `ClipboardPayload` frame twice in a row, with
the snapshot initially different from the decoded content, performs
exactly one clipboard write and one `Ack` send (the first handling, whose
whole effect list is one write, one ack, one received-notice), while the
second handling changes nothing and emits no effect at all. -/
theorem C2_idempotent_apply (hostname : List Char) (now1 now2 : Nat)
    (rest : List Char) (sender : String) (s : DaemonState)
    (bytes content : List Nat)
    (hb : b64decodeChars rest = some bytes)
    (hu : utf8Decode bytes = some content)
    (hne : ¬(content = s.last_clipboard)) :
    handleMessage hostname now1 (CLIPBOARD_PRE ++ rest) sender s =
      ({ s with last_clipboard := content },
        [Effect.clipWrite content,
          Effect.sendTo (ACK_PRE ++ "RECEIVED".data) sender,
          Effect.printReceived content]) ∧
    handleMessage hostname now2 (CLIPBOARD_PRE ++ rest) sender
        { s with last_clipboard := content } =
      ({ s with last_clipboard := content }, []) := by
  constructor
  · rw [handleMessage_clip]
    simp only [handleClipboard, drop_clip, hb, hu]
    rw [if_pos hne]
  · rw [handleMessage_clip]
    simp only [handleClipboard, drop_clip, hb, hu]
    rw [if_neg fun h => h rfl]

/-- C2 witness: the frame carrying base64 `"aGk="` (UTF-8 `"hi"`) against
an empty snapshot. -/
theorem C2_idempotent_apply_witness :
    handleMessage "host".data 1 (CLIPBOARD_PRE ++ "aGk=".data) "10.0.0.7"
        ⟨[], []⟩ =
      ({ last_clipboard := [104, 105], discovered_devices := [] },
        [Effect.clipWrite [104, 105],
          Effect.sendTo (ACK_PRE ++ "RECEIVED".data) "10.0.0.7",
          Effect.printReceived [104, 105]]) ∧
    handleMessage "host".data 2 (CLIPBOARD_PRE ++ "aGk=".data) "10.0.0.7"
        { last_clipboard := [104, 105], discovered_devices := [] } =
      ({ last_clipboard := [104, 105], discovered_devices := [] }, []) :=
  C2_idempotent_apply "host".data 1 2 "aGk=".data "10.0.0.7" ⟨[], []⟩
    [104, 105] [104, 105] (by decide) (by decide) (by decide)

/-- C3: a frame with the clipboard prefix whose remainder fails base64
decoding, or whose decoded bytes are not valid UTF-8, is handled with no
clipboard write, no acknowledgment, and no change to the snapshot or the
peer table.  (The receive loop survives because the handler is total: the
daemon's `try`/`except` swallows the error, which this embedding expresses
by the failing branches returning the unchanged state.) -/
theorem C3_malformed_payload (hostname : List Char) (now : Nat)
    (rest : List Char) (sender : String) (s : DaemonState)
    (hbad : (b64decodeChars rest).bind utf8Decode = none) :
    handleMessage hostname now (CLIPBOARD_PRE ++ rest) sender s = (s, []) := by
  rw [handleMessage_clip]
  cases hb : b64decodeChars rest with
  | none => simp [handleClipboard, drop_clip, hb]
  | some bytes =>
    have hu : utf8Decode bytes = none := by
      rw [hb] at hbad
      simpa using hbad
    simp [handleClipboard, drop_clip, hb, hu]

/-- C3 witness: `"abc"` is invalid base64 (three data characters), and
`"/w=="` decodes to the byte `0xFF`, which is not valid UTF-8; both frames
are dropped without effect. -/
theorem C3_malformed_payload_witness :
    handleMessage "host".data 3 (CLIPBOARD_PRE ++ "abc".data) "10.0.0.7"
        ⟨[104], []⟩ = (⟨[104], []⟩, []) ∧
    handleMessage "host".data 3 (CLIPBOARD_PRE ++ "/w==".data) "10.0.0.7"
        ⟨[104], []⟩ = (⟨[104], []⟩, []) :=
  ⟨C3_malformed_payload "host".data 3 "abc".data "10.0.0.7" ⟨[104], []⟩ (by decide),
    C3_malformed_payload "host".data 3 "/w==".data "10.0.0.7" ⟨[104], []⟩ (by decide)⟩

/-- C4 counterexample: an `Ack` arriving at time 50 from the known peer
`10.0.0.5` (whose `last_seen` is 0) leaves the whole state unchanged --
`last_seen` stays 0, not the current time 50, contradicting the claim that
every message kind refreshes `lastSeen`. -/
theorem C4_ack_does_not_touch_lastseen :
    handleMessage "host".data 50 (ACK_PRE ++ "RECEIVED".data) "10.0.0.5"
        ⟨[], [("10.0.0.5", ⟨"10.0.0.5", "Linux".data, "peerA".data, 0⟩)]⟩ =
      (⟨[], [("10.0.0.5", ⟨"10.0.0.5", "Linux".data, "peerA".data, 0⟩)]⟩, []) ∧
    ¬((0 : Nat) = 50) := by
  decide

/-- C4 (amended): only `DeviceAnnounce` (whole-entry upsert) and
`Heartbeat` (touch) set a known peer's `lastSeen` to the current time;
`Ack`, `Discover` and `ClipboardPayload` leave the peer table untouched. -/
theorem C4_lastseen_characterization (hostname : List Char) (now : Nat)
    (sender : String) (s : DaemonState) (ackSt clipRest devRest : List Char)
    (hknown : (dictLookup sender s.discovered_devices).isSome) :
    dictLookup sender
        (handleMessage hostname now HEARTBEAT_MESSAGE sender s).1.discovered_devices =
      (dictLookup sender s.discovered_devices).map
        (fun dev => { dev with last_seen := now }) ∧
    handleMessage hostname now (ACK_PRE ++ ackSt) sender s = (s, []) ∧
    (handleMessage hostname now DISCOVERY_MESSAGE sender s).1 = s ∧
    (handleMessage hostname now (CLIPBOARD_PRE ++ clipRest) sender s).1.discovered_devices =
      s.discovered_devices ∧
    (2 ≤ (splitChar '|' ((DEVICE_PRE ++ devRest).drop DEVICE_PRE.length)).length →
      (dictLookup sender
          (handleMessage hostname now (DEVICE_PRE ++ devRest) sender s).1.discovered_devices).map
        Device.last_seen = some now) := by
  refine ⟨?_, rfl, rfl, ?_, ?_⟩
  · rw [handleMessage_heartbeat, handleHeartbeat, if_pos hknown]
    exact dictLookup_dictTouch_self sender now s.discovered_devices
  · rw [handleMessage_clip]
    cases hb : b64decodeChars clipRest with
    | none => simp [handleClipboard, drop_clip, hb]
    | some bytes =>
      cases hu : utf8Decode bytes with
      | none => simp [handleClipboard, drop_clip, hb, hu]
      | some content =>
        by_cases hc : content = s.last_clipboard
        · simp [handleClipboard, drop_clip, hb, hu, hc]
        · simp [handleClipboard, drop_clip, hb, hu, hc]
  · intro h2
    rw [handleMessage_device]
    simp only [handleDeviceResponse]
    rw [if_pos h2]
    simp [dictLookup_dictInsert_self]

/-- C4 witness: at time 7 a heartbeat refreshes the known peer, while ack,
discover, clipboard and device-announce frames behave as characterized. -/
theorem C4_lastseen_characterization_witness :
    dictLookup "10.0.0.9"
        (handleMessage "host".data 7 HEARTBEAT_MESSAGE "10.0.0.9"
          ⟨[], [("10.0.0.9", ⟨"10.0.0.9", "Linux".data, "peerB".data, 2⟩)]⟩).1.discovered_devices =
      (dictLookup "10.0.0.9"
        (⟨[], [("10.0.0.9", ⟨"10.0.0.9", "Linux".data, "peerB".data, 2⟩)]⟩ :
          DaemonState).discovered_devices).map
        (fun dev => { dev with last_seen := 7 }) ∧
    handleMessage "host".data 7 (ACK_PRE ++ "RECEIVED".data) "10.0.0.9"
        ⟨[], [("10.0.0.9", ⟨"10.0.0.9", "Linux".data, "peerB".data, 2⟩)]⟩ =
      (⟨[], [("10.0.0.9", ⟨"10.0.0.9", "Linux".data, "peerB".data, 2⟩)]⟩, []) ∧
    (handleMessage "host".data 7 DISCOVERY_MESSAGE "10.0.0.9"
        ⟨[], [("10.0.0.9", ⟨"10.0.0.9", "Linux".data, "peerB".data, 2⟩)]⟩).1 =
      ⟨[], [("10.0.0.9", ⟨"10.0.0.9", "Linux".data, "peerB".data, 2⟩)]⟩ ∧
    (handleMessage "host".data 7 (CLIPBOARD_PRE ++ "aGk=".data) "10.0.0.9"
        ⟨[], [("10.0.0.9", ⟨"10.0.0.9", "Linux".data, "peerB".data, 2⟩)]⟩).1.discovered_devices =
      (⟨[], [("10.0.0.9", ⟨"10.0.0.9", "Linux".data, "peerB".data, 2⟩)]⟩ :
        DaemonState).discovered_devices ∧
    (2 ≤ (splitChar '|' ((DEVICE_PRE ++ "Linux|peerB".data).drop DEVICE_PRE.length)).length →
      (dictLookup "10.0.0.9"
          (handleMessage "host".data 7 (DEVICE_PRE ++ "Linux|peerB".data) "10.0.0.9"
            ⟨[], [("10.0.0.9", ⟨"10.0.0.9", "Linux".data, "peerB".data, 2⟩)]⟩).1.discovered_devices).map
        Device.last_seen = some 7) :=
  C4_lastseen_characterization "host".data 7 "10.0.0.9"
    ⟨[], [("10.0.0.9", ⟨"10.0.0.9", "Linux".data, "peerB".data, 2⟩)]⟩
    "RECEIVED".data "aGk=".data "Linux|peerB".data (by decide)

/-- C5: when a poll reads non-empty text differing from the snapshot, the
first poll updates the snapshot and broadcasts the encoded
`ClipboardPayload` once; an immediately following poll reading the same
text changes nothing and sends nothing. -/
theorem C5_dedup_broadcast (t : List Nat) (s : DaemonState)
    (hne : ¬(t = [])) (hdiff : ¬(t = s.last_clipboard)) :
    pollStep t s = ({ s with last_clipboard := t }, broadcastClipboard t) ∧
    bcasts (broadcastClipboard t) =
      [CLIPBOARD_PRE ++ b64encodeBytes (utf8Encode t)] ∧
    pollStep t { s with last_clipboard := t } =
      ({ s with last_clipboard := t }, []) := by
  refine ⟨?_, rfl, ?_⟩
  · rw [pollStep, if_pos ⟨hne, hdiff⟩]
  · rw [pollStep, if_neg fun h => h.2 rfl]

/-- C5 witness: polling the one-character text `h` twice against an empty
snapshot. -/
theorem C5_dedup_broadcast_witness :
    pollStep [104] ⟨[], []⟩ =
      ({ (⟨[], []⟩ : DaemonState) with last_clipboard := [104] },
        broadcastClipboard [104]) ∧
    bcasts (broadcastClipboard [104]) =
      [CLIPBOARD_PRE ++ b64encodeBytes (utf8Encode [104])] ∧
    pollStep [104] { (⟨[], []⟩ : DaemonState) with last_clipboard := [104] } =
      ({ (⟨[], []⟩ : DaemonState) with last_clipboard := [104] }, []) :=
  C5_dedup_broadcast [104] ⟨[], []⟩ (by decide) (by decide)

/-- C6: with distinct dict keys (always true of a Python dict),
`_cleanup_stale_devices` at time `now` retains exactly the peers with
`now - last_seen ≤ 120` and removes exactly those with
`now - last_seen > 120`, and the removed peers are exactly the ones
reported as disconnected, in table order. -/
theorem C6_stale_eviction (now : Nat) (d : List (String × Device))
    (hnd : (d.map Prod.fst).Nodup) :
    (cleanupStale now d).1 =
      (d.filter fun p => decide (now - p.2.last_seen ≤ 120)) ∧
    (cleanupStale now d).2 =
      ((d.filter fun p => decide (120 < now - p.2.last_seen)).map
        fun p => Effect.printDisconnected p.2) := by
  rw [cleanupStale_eq now d hnd]
  exact ⟨rfl, rfl⟩

/-- C6 witness: at time 200, a peer last seen at 10 (190 seconds ago) is
evicted and reported; a peer last seen at 100 (100 seconds ago) is
retained. -/
theorem C6_stale_eviction_witness :
    (cleanupStale 200
        [("10.0.0.1", ⟨"10.0.0.1", "Linux".data, "old".data, 10⟩),
          ("10.0.0.2", ⟨"10.0.0.2", "Linux".data, "fresh".data, 100⟩)]).1 =
      ([("10.0.0.1", ⟨"10.0.0.1", "Linux".data, "old".data, 10⟩),
          ("10.0.0.2", ⟨"10.0.0.2", "Linux".data, "fresh".data, 100⟩)].filter
        fun p => decide (200 - p.2.last_seen ≤ 120)) ∧
    (cleanupStale 200
        [("10.0.0.1", ⟨"10.0.0.1", "Linux".data, "old".data, 10⟩),
          ("10.0.0.2", ⟨"10.0.0.2", "Linux".data, "fresh".data, 100⟩)]).2 =
      (([("10.0.0.1", ⟨"10.0.0.1", "Linux".data, "old".data, 10⟩),
          ("10.0.0.2", ⟨"10.0.0.2", "Linux".data, "fresh".data, 100⟩)].filter
        fun p => decide (120 < 200 - p.2.last_seen)).map
        fun p => Effect.printDisconnected p.2) :=
  C6_stale_eviction 200
    [("10.0.0.1", ⟨"10.0.0.1", "Linux".data, "old".data, 10⟩),
      ("10.0.0.2", ⟨"10.0.0.2", "Linux".data, "fresh".data, 100⟩)] (by decide)

/-- C7: a heartbeat from an address absent from the peer table leaves the
entire state unchanged -- no entry is created, none is modified, and no
effect is produced. -/
theorem C7_silent_heartbeat (hostname : List Char) (now : Nat)
    (sender : String) (s : DaemonState)
    (hunknown : dictLookup sender s.discovered_devices = none) :
    handleMessage hostname now HEARTBEAT_MESSAGE sender s = (s, []) := by
  rw [handleMessage_heartbeat, handleHeartbeat, hunknown]
  simp

/-- C7 witness: a heartbeat from `10.0.0.3`, unknown to a table holding
only `10.0.0.9`, is ignored. -/
theorem C7_silent_heartbeat_witness :
    handleMessage "host".data 9 HEARTBEAT_MESSAGE "10.0.0.3"
        ⟨[], [("10.0.0.9", ⟨"10.0.0.9", "Linux".data, "peerB".data, 2⟩)]⟩ =
      (⟨[], [("10.0.0.9", ⟨"10.0.0.9", "Linux".data, "peerB".data, 2⟩)]⟩, []) :=
  C7_silent_heartbeat "host".data 9 "10.0.0.3"
    ⟨[], [("10.0.0.9", ⟨"10.0.0.9", "Linux".data, "peerB".data, 2⟩)]⟩ (by decide)

/-- C8 counterexample: after a first `DeviceAnnounce` from `10.0.0.5` the
address is in the table, yet a second identical announce still produces a
discovery announcement -- the code prints "Device discovered" on every
valid announce, so a re-announce is not a silent refresh. -/
theorem C8_reannounce_not_silent :
    (dictLookup "10.0.0.5"
        (handleMessage "host".data 5 (DEVICE_PRE ++ "Linux|peerA".data) "10.0.0.5"
          ⟨[], []⟩).1.discovered_devices).isSome = true ∧
    ¬(discoveredLogs
        (handleMessage "host".data 6 (DEVICE_PRE ++ "Linux|peerA".data) "10.0.0.5"
          (handleMessage "host".data 5 (DEVICE_PRE ++ "Linux|peerA".data) "10.0.0.5"
            ⟨[], []⟩).1).2 = []) := by
  decide

/-- C8 (amended): every syntactically valid `DeviceAnnounce` (at least two
`'|'`-separated fields) upserts the sender's entry and emits a discovery
announcement, whether or not the address was already in the table. -/
theorem C8_announce_always_logs (hostname : List Char) (now : Nat)
    (devRest : List Char) (sender : String) (s : DaemonState)
    (h2 : 2 ≤ (splitChar '|' devRest).length) :
    handleMessage hostname now (DEVICE_PRE ++ devRest) sender s =
      ({ s with discovered_devices := (dictInsert sender
            ⟨sender, (splitChar '|' devRest).getD 0 [],
              (splitChar '|' devRest).getD 1 [], now⟩ s.discovered_devices) },
        [Effect.printDiscovered
          ⟨sender, (splitChar '|' devRest).getD 0 [],
            (splitChar '|' devRest).getD 1 [], now⟩]) := by
  rw [handleMessage_device]
  simp only [handleDeviceResponse, drop_device]
  rw [if_pos h2]

/-- C8 witness: a second announce from an address already present still
upserts and still announces. -/
theorem C8_announce_always_logs_witness :
    handleMessage "host".data 6 (DEVICE_PRE ++ "Linux|peerA".data) "10.0.0.5"
        ⟨[], [("10.0.0.5", ⟨"10.0.0.5", "Linux".data, "peerA".data, 5⟩)]⟩ =
      ({ (⟨[], [("10.0.0.5", ⟨"10.0.0.5", "Linux".data, "peerA".data, 5⟩)]⟩ :
            DaemonState) with discovered_devices := (dictInsert "10.0.0.5"
            ⟨"10.0.0.5", (splitChar '|' "Linux|peerA".data).getD 0 [],
              (splitChar '|' "Linux|peerA".data).getD 1 [], 6⟩
            [("10.0.0.5", ⟨"10.0.0.5", "Linux".data, "peerA".data, 5⟩)]) },
        [Effect.printDiscovered
          ⟨"10.0.0.5", (splitChar '|' "Linux|peerA".data).getD 0 [],
            (splitChar '|' "Linux|peerA".data).getD 1 [], 6⟩]) :=
  C8_announce_always_logs "host".data 6 "Linux|peerA".data "10.0.0.5"
    ⟨[], [("10.0.0.5", ⟨"10.0.0.5", "Linux".data, "peerA".data, 5⟩)]⟩ (by decide)

/-- C9 counterexample: a 49152-character clipboard text encodes to a
65551-byte frame, beyond the 65535-byte receive buffer, and the outbound
path still broadcasts it -- encoding never fails, contradicting the claim
that an oversized payload must fail at encoding. -/
theorem C9_oversize_still_broadcast :
    65535 < (CLIPBOARD_PRE ++ b64encodeBytes
        (utf8Encode (List.replicate 49152 97))).length ∧
    bcasts (broadcastClipboard (List.replicate 49152 97)) =
      [CLIPBOARD_PRE ++ b64encodeBytes (utf8Encode (List.replicate 49152 97))] := by
  constructor
  · rw [List.length_append, length_b64encodeBytes, utf8Encode_replicate_a,
      List.length_replicate, show CLIPBOARD_PRE.length = 15 from rfl]
    norm_num
  · rfl

/-- C9 (amended): the outbound path never truncates and never fails:
for every clipboard text, whatever its size, the broadcast attempt carries
exactly the complete frame `CLIPBOARD_PREFIX + base64(utf8(text))`; a
too-large datagram is rejected by the socket layer at send time (and only
logged), not cut short by the encoder. -/
theorem C9_no_truncation (content : List Nat) :
    bcasts (broadcastClipboard content) =
      [CLIPBOARD_PRE ++ b64encodeBytes (utf8Encode content)] := rfl

/-- C10: a poll that reads the empty string never broadcasts and never
touches the snapshot, even when the snapshot currently holds different
non-empty text, because the monitor loop requires `current` to be truthy
before comparing. -/
theorem C10_empty_poll_no_effect (s : DaemonState) : pollStep [] s = (s, []) := rfl

end NexusClip
